import Mathlib

/-!
Shallow embedding of `pymatgen/io/feff/outputs.py` (classes `LDos` and `Xmu`).

Text files are modelled as lists of lines, each line pre-split into
whitespace-separated tokens (`f[k].split()` in Python is `f.get? k`).  A token
is either numeric (Python `float()` succeeds and yields its value) or raw text
(Python `float()` raises `ValueError`).  Numeric values live in a parameter
type `α`; the only arithmetic the parsers perform is addition starting from
zero, so an additive monoid suffices, and the witness theorems instantiate `α`
with `ℤ`.  The file system is an association list from file names to file
contents; a missing name models a missing file (Python `open`/`np.loadtxt`
raise).  Every Python statement that can raise (`float`, out-of-range
indexing, `dict` lookup, missing file) is an `Option` bind, so a parse either
produces a fully assembled value object or `none`.

External collaborators from other pymatgen modules (`Header`, `Tags`,
`Potential`, the `structure` object) are not part of the two source files;
their already-computed outputs are passed to the embedded functions as
parameters (the species symbol of each site, the two potential dictionaries,
the header and tags objects, the potential string lines).
-/

namespace FeffOutputs

/-- A whitespace-separated token of an input file: numeric or raw text. -/
inductive Tok (α : Type) where
  | num (q : α)
  | raw (s : String)
deriving DecidableEq

variable {α : Type}

/-- Python `float(token)`: succeeds exactly on numeric tokens. -/
def pyFloat : Tok α → Option α
  | Tok.num q => some q
  | Tok.raw _ => none

/-- The string a token stands for (used where Python keeps the token as text). -/
def tokStr [ToString α] : Tok α → String
  | Tok.num q => toString q
  | Tok.raw s => s

/-- A file's contents: lines, each pre-split into tokens. -/
abbrev FileContent (α : Type) := List (List (Tok α))

/-- The file system: file name to contents; absent name = missing file. -/
abbrev FS (α : Type) := List (String × FileContent α)

/-- Open a file and read its lines (`zopen` + `readlines`). -/
def fsLookup (fs : FS α) (name : String) : Option (FileContent α) :=
  List.lookup name fs

/-- Traverse a list with a fallible function, failing if any element fails
(the `Option`-monad form of a Python list comprehension whose body can raise). -/
def traverseOpt (f : β → Option γ) : List β → Option (List γ)
  | [] => some []
  | a :: as => (f a).bind fun b => (traverseOpt f as).map fun bs => b :: bs

/-- A token starts a comment when its text begins with the hash mark. -/
def isCommentTok : Tok α → Bool
  | Tok.num _ => false
  | Tok.raw s =>
      match s.toList with
      | [] => false
      | c :: _ => c == ('#')

/-- Drop the part of a line from the first comment token on. -/
def stripComment : List (Tok α) → List (Tok α)
  | [] => []
  | t :: ts => if isCommentTok t then [] else t :: stripComment ts

/-- All rows have the same number of columns. -/
def rectangular (table : List (List α)) : Bool :=
  match table with
  | [] => true
  | r :: rs => rs.all fun r2 => r2.length == r.length

/-- Model of `np.loadtxt`: read the file, discard comments and blank lines,
parse every remaining token as a number, and require a rectangular table. -/
def loadtxt (fs : FS α) (name : String) : Option (List (List α)) :=
  (fsLookup fs name).bind fun f =>
    (traverseOpt (traverseOpt pyFloat) (((f.map stripComment).filter fun l => !l.isEmpty))).bind
      fun table => if rectangular table then some table else none

/-- Numbered ldos file name: the format call pads a zero before `i` when
`str(i)` has one digit, and is `filename2 + str(i) + ".dat"` otherwise. -/
def ldosName (filename2 : String) (i : ℕ) : String :=
  if (toString i).length = 1 then filename2 ++ ("0") ++ toString i ++ (".dat")
  else filename2 ++ toString i ++ (".dat")

/-- Spin channel (`pymatgen` `Spin`). -/
inductive Spin where
  | up
  | down
deriving DecidableEq, BEq

/-- The orbital labels the ldos parser uses (`Orbital.s`, `Orbital.py`,
`Orbital.dxy`, `Orbital.f0`). -/
inductive Orbital where
  | s
  | py
  | dxy
  | f0
deriving DecidableEq, BEq

/-- A per-spin density mapping, as an association list (Python `dict`). -/
abbrev SpinMap (α : Type) := List (Spin × List α)

/-- `pymatgen` `Dos`: Fermi energy, energies, per-spin total densities. -/
structure Dos (α : Type) where
  efermi : α
  energies : List α
  densities : SpinMap α
deriving DecidableEq

/-- A single site's projected DOS: orbital to spin map. -/
abbrev SitePdos (α : Type) := List (Orbital × SpinMap α)

/-- `pymatgen` `CompleteDos`: structure (as the species symbol of each site),
total DOS, and the per-site projected DOS in site order. -/
structure CompleteDos (α : Type) where
  struct : List String
  dos : Dos α
  pdoss : List (SitePdos α)
deriving DecidableEq

/-- Charge-transfer values per orbital character plus the total. -/
structure ChtVals (α : Type) where
  s : α
  p : α
  d : α
  f : α
  tot : α
deriving DecidableEq

/-- The charge-transfer table: ordered entries key → (atom → values). -/
abbrev Cht (α : Type) := List (String × String × ChtVals α)

/-- The `LDos` value object. -/
structure LDos (α : Type) where
  complete_dos : CompleteDos α
  charge_transfer : Cht α
deriving DecidableEq

/-- Python `ldos[pot_index]`: the dict built by the load loop has keys
`1 .. len(pot_dict)`, so key `0` (or any out-of-range key) raises. -/
def getLdos (tabs : List (List (List α))) (potIndex : ℕ) : Option (List (List α)) :=
  if potIndex = 0 then none else tabs.get? (potIndex - 1)

/-- The comprehension `[ldos[pot_index][j][orbIdx + 1] for j in range(dlength)]`. -/
def densityAt (tabs : List (List (List α))) (potIndex orbIdx dlength : ℕ) : Option (List α) :=
  (getLdos tabs potIndex).bind fun tab =>
    traverseOpt (fun j => (tab.get? j).bind fun row => row.get? (orbIdx + 1)) (List.range dlength)

/-- Build the spin dict with the single key `Spin.up`, or with both keys when
a down channel is given; the source sets `downdos = None`, so the call site
takes the single-channel branch. -/
def mkSpinMap (updos : List α) (downdos : Option (List α)) : SpinMap α :=
  match downdos with
  | some dd => [(Spin.up, updos), (Spin.down, dd)]
  | none => [(Spin.up, updos)]

/-- The dicts `vorb` (orbital character to `Orbital` label) and `forb`
(orbital character to column offset) of the source, fused on their shared
keys s, p, d, f. -/
def vorbForb : List (String × Orbital × ℕ) :=
  [(("s"), Orbital.s, 0), (("p"), Orbital.py, 1), (("d"), Orbital.dxy, 2), (("f"), Orbital.f0, 3)]

/-- One site's projected DOS: look up the site's potential index, then for each
orbital character read its density column (the `for k, v in vorb.items()` loop
with `downdos = None`). -/
def sitePdos (tabs : List (List (List α))) (pot_dict : List (String × ℕ)) (dlength : ℕ)
    (sym : String) : Option (SitePdos α) :=
  (List.lookup sym pot_dict).bind fun potIndex =>
    traverseOpt
      (fun kv => (densityAt tabs potIndex kv.2.2 dlength).map fun density =>
        (kv.2.1, mkSpinMap density none))
      vorbForb

/-- Pointwise list addition (`tdos[j] = tdos[j] + density[j]`). -/
def addL [Add α] (a b : List α) : List α := List.zipWith (· + ·) a b

/-- The inner total-DOS loop over `forb.values()` for one site. -/
def tdosSite [Add α] (tabs : List (List (List α))) (potIndex dlength : ℕ) :
    List ℕ → List α → Option (List α)
  | [], acc => some acc
  | v :: vs, acc =>
      (densityAt tabs potIndex v dlength).bind fun density =>
        tdosSite tabs potIndex dlength vs (addL acc density)

/-- The total-DOS accumulation: start from the given accumulator (`[0] *
dlength` at the call site) and add every site's four orbital densities. -/
def computeTdos [Add α] (tabs : List (List (List α))) (pot_dict : List (String × ℕ))
    (dlength : ℕ) : List String → List α → Option (List α)
  | [], acc => some acc
  | sym :: rest, acc =>
      (List.lookup sym pot_dict).bind fun potIndex =>
        (tdosSite tabs potIndex dlength [0, 1, 2, 3] acc).bind fun acc2 =>
          computeTdos tabs pot_dict dlength rest acc2

/-- One iteration of the charge-transfer loop: read ldos file `i`, take the
third token of lines 4-7 and the fifth token of line 2 as floats, and key the
values by the potential's atom (`pot_dict[i]` from `dicts[1]`). -/
def chtEntry (pot_dict1 : List (ℕ × String)) (fs : FS α) (filename2 : String) (i : ℕ) :
    Option (String × String × ChtVals α) :=
  (fsLookup fs (ldosName filename2 i)).bind fun f =>
    ((f.get? 3).bind fun l => (l.get? 2).bind pyFloat).bind fun s =>
      ((f.get? 4).bind fun l => (l.get? 2).bind pyFloat).bind fun p =>
        ((f.get? 5).bind fun l => (l.get? 2).bind pyFloat).bind fun d =>
          ((f.get? 6).bind fun l => (l.get? 2).bind pyFloat).bind fun f1 =>
            ((f.get? 1).bind fun l => (l.get? 4).bind pyFloat).bind fun tot =>
              (List.lookup i pot_dict1).map fun atom =>
                (toString i, atom, ChtVals.mk s p d f1 tot)

namespace LDos

/-- `LDos.charge_transfer_from_file`: one ordered entry per `i` in
`range(0, len(dicts[0]) + 1)`.  `npots` is `len(dicts[0])` and `pot_dict1` is
`dicts[1]` (potential index to atom symbol). -/
def charge_transfer_from_file (npots : ℕ) (pot_dict1 : List (ℕ × String)) (fs : FS α)
    (filename2 : String) : Option (Cht α) :=
  traverseOpt (chtEntry pot_dict1 fs filename2) (List.range (npots + 1))

/-- `LDos.from_file`.  `struct` is the species symbol of each structure site,
`pot_dict` is `dicts[0]` (symbol to potential index) and `pot_dict1` is
`dicts[1]`; these are the outputs of the external `Header`/`Potential`
collaborators.  The body follows the source statement by statement. -/
def from_file [Zero α] [Add α] (struct : List String) (pot_dict : List (String × ℕ))
    (pot_dict1 : List (ℕ × String)) (fs : FS α) (filename2 : String) : Option (LDos α) :=
  (fsLookup fs (filename2 ++ ("00.dat"))).bind fun f =>
    (f.get? 0).bind fun line0 =>
      (line0.get? 4).bind fun tok =>
        (pyFloat tok).bind fun efermi =>
          (traverseOpt (fun i0 => loadtxt fs (ldosName filename2 (i0 + 1)))
              (List.range pot_dict.length)).bind fun tabs =>
            (getLdos tabs 1).bind fun tab1 =>
              (traverseOpt (fun row => row.get? 0) tab1).bind fun dos_energies =>
                (traverseOpt (sitePdos tabs pot_dict tab1.length) struct).bind fun pdoss =>
                  (computeTdos tabs pot_dict tab1.length struct
                      (List.replicate tab1.length 0)).bind fun tdosL =>
                    (charge_transfer_from_file pot_dict.length pot_dict1 fs
                        filename2).map fun cht =>
                      { complete_dos :=
                          { struct := struct
                            dos :=
                              { efermi := efermi
                                energies := dos_energies
                                densities := [(Spin.up, tdosL)] }
                            pdoss := pdoss }
                        charge_transfer := cht }

/-- The string block one charge-transfer entry contributes. -/
def chtAtomStr [ToString α] (atom : String) (v : ChtVals α) : String :=
  ("\n") ++ atom ++ ("\n") ++ ("s   ") ++ toString v.s ++ ("\n") ++
    ("p   ") ++ toString v.p ++ ("\n") ++ ("d   ") ++ toString v.d ++ ("\n") ++
    ("f   ") ++ toString v.f ++ ("\n") ++ ("tot ") ++ toString v.tot ++ ("\n")

/-- `LDos.charge_transfer_to_string` as a state transformer on the object: the
body reads `self.charge_transfer`, looks up `ch[str(i)]` for each
`i in range(len(ch))` (a lookup that can raise) and joins the pieces; it never
assigns to `self`. -/
def charge_transfer_to_stringM [ToString α] : StateM (LDos α) (Option String) := do
  let self ← get
  let ch := self.charge_transfer
  pure <|
    (traverseOpt
        (fun i => (List.lookup (toString i) ch).map fun e => chtAtomStr e.1 e.2)
        (List.range ch.length)).map
      fun parts => ("\nCharge Transfer\n\nabsorbing atom") ++ String.join parts

end LDos

/-- The FEFF tags of the run (`Tags` from `pymatgen.io.feff`), as the key →
value pairs the `Xmu` code reads (`"EDGE"` lookup, `"XANES"` membership). -/
abbrev Tags := List (String × String)

/-- The header object (`Header` from `pymatgen.io.feff`), reduced to the two
attributes `Xmu` reads: `source`, and `formula` where `none` models the
attribute raising `IndexError`. -/
structure Header where
  source : String
  formula : Option (List String)
deriving DecidableEq

/-- Opaque model of the external `Header.as_dict` serialization. -/
structure HeaderDict where
  h : Header
deriving DecidableEq

/-- External `Header.as_dict` (from `pymatgen.io.feff`, not a source file
here): modelled as the injection into its serialized wrapper. -/
def Header.as_dict (h : Header) : HeaderDict := HeaderDict.mk h

/-- External `Header.from_dict`, inverse of the wrapper injection. -/
def Header.from_dict (hd : HeaderDict) : Header := hd.h

/-- The `Xmu` value object. -/
structure Xmu (α : Type) where
  header : Header
  parameters : Tags
  absorbing_atom : String
  data : List (List α)
deriving DecidableEq

/-- The dictionary `Xmu.as_dict` builds (string keys of the Python dict become
fields; `calc` is a Lean keyword, stored as `calcType`). -/
structure XmuDict (α : Type) where
  module : String
  cls : String
  energies : List α
  mu : List α
  mu0 : List α
  chi : List α
  atom : String
  edge : String
  source : String
  calcType : String
  formula : String
  HEADER : HeaderDict
  TAGS : Tags
  c_atom : String
  xmu : List (List α)
deriving DecidableEq

namespace Xmu

/-- Column `k` of `self.data` (`self.data[:, k]`); a missing column raises. -/
def column (x : Xmu α) (k : ℕ) : Option (List α) :=
  traverseOpt (fun row => row.get? k) x.data

/-- Property `energies`: column 0, reading `self` and writing nothing back. -/
def energiesM : StateM (Xmu α) (Option (List α)) := do
  let x ← get
  pure (column x 0)

/-- Property `relative_energies`: column 1. -/
def relative_energiesM : StateM (Xmu α) (Option (List α)) := do
  let x ← get
  pure (column x 1)

/-- Property `wavenumber`: column 2. -/
def wavenumberM : StateM (Xmu α) (Option (List α)) := do
  let x ← get
  pure (column x 2)

/-- Property `mu`: column 3. -/
def muM : StateM (Xmu α) (Option (List α)) := do
  let x ← get
  pure (column x 3)

/-- Property `mu0`: column 4. -/
def mu0M : StateM (Xmu α) (Option (List α)) := do
  let x ← get
  pure (column x 4)

/-- Property `chi`: column 5. -/
def chiM : StateM (Xmu α) (Option (List α)) := do
  let x ← get
  pure (column x 5)

/-- Property `source`: `self.header.source`. -/
def sourceM : StateM (Xmu α) String := do
  let x ← get
  pure x.header.source

/-- Property `calc`: the XANES/EXAFS choice by key membership in the tags. -/
def calcM : StateM (Xmu α) String := do
  let x ← get
  pure (if (x.parameters.map Prod.fst).contains ("XANES") then ("XANES") else ("EXAFS"))

/-- Property `material_formula`: `self.header.formula` guarded by
`except IndexError`, then `"".join(map(str, form))`; in the except branch
`form` is the fallback string itself, joined character by character. -/
def material_formulaM : StateM (Xmu α) String := do
  let x ← get
  match x.header.formula with
  | some form => pure (String.join (form.map fun s => s))
  | none =>
      pure (String.join ((("No formula provided").toList).map fun c => String.mk [c]))

/-- Property `edge`: `self.parameters["EDGE"]`, raising on a missing key. -/
def edgeM : StateM (Xmu α) (Option String) := do
  let x ← get
  pure (List.lookup ("EDGE") x.parameters)

/-- `Xmu.as_dict`: evaluates every property of `self` and assembles the
dictionary; a property that raises (columns, `EDGE`) makes the call raise. -/
def as_dictM : StateM (Xmu α) (Option (XmuDict α)) := do
  let x ← get
  let esO ← energiesM
  let muO ← muM
  let mu0O ← mu0M
  let chiO ← chiM
  let edgeO ← edgeM
  let srcv ← sourceM
  let calcv ← calcM
  let formv ← material_formulaM
  pure <|
    esO.bind fun es =>
      muO.bind fun muv =>
        mu0O.bind fun mu0v =>
          chiO.bind fun chiv =>
            edgeO.map fun edgev =>
              { module := ("pymatgen.io.feff.outputs")
                cls := ("Xmu")
                energies := es
                mu := muv
                mu0 := mu0v
                chi := chiv
                atom := x.absorbing_atom
                edge := edgev
                source := srcv
                calcType := calcv
                formula := formv
                HEADER := Header.as_dict x.header
                TAGS := x.parameters
                c_atom := x.absorbing_atom
                xmu := x.data }

/-- Value of the `energies` property. -/
def energies (x : Xmu α) : Option (List α) := (energiesM.run x).1

/-- Value of the `relative_energies` property. -/
def relative_energies (x : Xmu α) : Option (List α) := (relative_energiesM.run x).1

/-- Value of the `wavenumber` property. -/
def wavenumber (x : Xmu α) : Option (List α) := (wavenumberM.run x).1

/-- Value of the `mu` property. -/
def mu (x : Xmu α) : Option (List α) := (muM.run x).1

/-- Value of the `mu0` property. -/
def mu0 (x : Xmu α) : Option (List α) := (mu0M.run x).1

/-- Value of the `chi` property. -/
def chi (x : Xmu α) : Option (List α) := (chiM.run x).1

/-- Value of `as_dict`. -/
def as_dict (x : Xmu α) : Option (XmuDict α) := (as_dictM.run x).1

/-- `Xmu.from_dict`: rebuild the object from the dictionary keys
`HEADER`, `TAGS`, `c_atom`, `xmu` (`np.array(tolist)` is the identity on the
stored table). -/
def from_dict (d : XmuDict α) : Xmu α :=
  { header := Header.from_dict d.HEADER
    parameters := d.TAGS
    absorbing_atom := d.c_atom
    data := d.xmu }

/-- `Xmu.from_file`: `np.loadtxt` on the data file; `header`, `parameters` and
the potential-string lines come from external readers of the input file and
are passed in; the absorbing atom is the third token of the second line of the
potential string. -/
def from_file [ToString α] (fs : FS α) (filename : String) (header : Header)
    (parameters : Tags) (pots : List (List (Tok α))) : Option (Xmu α) :=
  (loadtxt fs filename).bind fun data =>
    (pots.get? 1).bind fun line =>
      (line.get? 2).map fun tok =>
        { header := header
          parameters := parameters
          absorbing_atom := tokStr tok
          data := data }

end Xmu

/-! ### Concrete fixture used by the witness theorems -/

/-- Species symbols of the structure sites of the example run. -/
def exStruct : List String := [("O")]

/-- Example `dicts[0]`: symbol → potential index. -/
def exPotDict : List (String × ℕ) := [(("O"), 1)]

/-- Example `dicts[1]`: potential index → symbol. -/
def exPotDict1 : List (ℕ × String) := [(0, ("Cu")), (1, ("O"))]

/-- Example ldos00.dat: a header-only file; the Fermi energy is the fifth
token of line 1, the charge-transfer values sit on lines 2 and 4-7. -/
def exLdos00 : FileContent ℤ :=
  [[Tok.raw ("#"), Tok.raw ("e"), Tok.raw ("x"), Tok.raw ("y"), Tok.num 7],
   [Tok.raw ("#"), Tok.raw ("a"), Tok.raw ("b"), Tok.raw ("c"), Tok.num 10],
   [Tok.raw ("#")],
   [Tok.raw ("#"), Tok.raw ("s"), Tok.num 1],
   [Tok.raw ("#"), Tok.raw ("p"), Tok.num 2],
   [Tok.raw ("#"), Tok.raw ("d"), Tok.num 3],
   [Tok.raw ("#"), Tok.raw ("f"), Tok.num 4]]

/-- Example ldos01.dat: same header layout followed by two data rows of five
numeric columns (energy, then the s/p/d/f densities). -/
def exLdos01 : FileContent ℤ :=
  [[Tok.raw ("#"), Tok.raw ("e"), Tok.raw ("x"), Tok.raw ("y"), Tok.num 7],
   [Tok.raw ("#"), Tok.raw ("a"), Tok.raw ("b"), Tok.raw ("c"), Tok.num 20],
   [Tok.raw ("#")],
   [Tok.raw ("#"), Tok.raw ("s"), Tok.num 5],
   [Tok.raw ("#"), Tok.raw ("p"), Tok.num 6],
   [Tok.raw ("#"), Tok.raw ("d"), Tok.num 7],
   [Tok.raw ("#"), Tok.raw ("f"), Tok.num 8],
   [Tok.num (-1), Tok.num 1, Tok.num 2, Tok.num 3, Tok.num 4],
   [Tok.num 0, Tok.num 2, Tok.num 3, Tok.num 4, Tok.num 5]]

/-- The example file system. -/
def exFS : FS ℤ := [(("ldos00.dat"), exLdos00), (("ldos01.dat"), exLdos01)]

/-- The object `LDos.from_file` produces on the example file system. -/
def exLDos : LDos ℤ :=
  { complete_dos :=
      { struct := [("O")]
        dos :=
          { efermi := 7
            energies := [-1, 0]
            densities := [(Spin.up, [10, 14])] }
        pdoss :=
          [[(Orbital.s, [(Spin.up, [1, 2])]),
            (Orbital.py, [(Spin.up, [2, 3])]),
            (Orbital.dxy, [(Spin.up, [3, 4])]),
            (Orbital.f0, [(Spin.up, [4, 5])])]] }
    charge_transfer :=
      [(("0"), ("Cu"), ChtVals.mk 1 2 3 4 10),
       (("1"), ("O"), ChtVals.mk 5 6 7 8 20)] }

/-- An example `Xmu` object with a well-formed 2×6 data table. -/
def exXmu : Xmu ℤ :=
  { header := { source := ("CoO"), formula := some [("Co"), ("O")] }
    parameters := [(("EDGE"), ("K")), (("XANES"), (""))]
    absorbing_atom := ("Co")
    data := [[1, 2, 3, 4, 5, 6], [7, 8, 9, 10, 11, 12]] }

/-- The dictionary `Xmu.as_dict` produces on the example object. -/
def exXmuDict : XmuDict ℤ :=
  { module := ("pymatgen.io.feff.outputs")
    cls := ("Xmu")
    energies := [1, 7]
    mu := [4, 10]
    mu0 := [5, 11]
    chi := [6, 12]
    atom := ("Co")
    edge := ("K")
    source := ("CoO")
    calcType := ("XANES")
    formula := ("CoO")
    HEADER := HeaderDict.mk { source := ("CoO"), formula := some [("Co"), ("O")] }
    TAGS := [(("EDGE"), ("K")), (("XANES"), (""))]
    c_atom := ("Co")
    xmu := [[1, 2, 3, 4, 5, 6], [7, 8, 9, 10, 11, 12]] }

/-! ### General lemmas about the embedding's building blocks -/

theorem traverseOpt_length {f : β → Option γ} :
    ∀ {xs : List β} {l : List γ}, traverseOpt f xs = some l → l.length = xs.length := by
  intro xs
  induction xs with
  | nil =>
      intro l h
      simp only [traverseOpt, Option.some.injEq] at h
      simp [← h]
  | cons a as ih =>
      intro l h
      simp only [traverseOpt, Option.bind_eq_some, Option.map_eq_some'] at h
      obtain ⟨b, _, bs, hbs, rfl⟩ := h
      simp [ih hbs]

theorem traverseOpt_get? {f : β → Option γ} :
    ∀ {xs : List β} {l : List γ}, traverseOpt f xs = some l →
      ∀ i, l.get? i = (xs.get? i).bind f := by
  intro xs
  induction xs with
  | nil =>
      intro l h i
      simp only [traverseOpt, Option.some.injEq] at h
      simp [← h]
  | cons a as ih =>
      intro l h i
      simp only [traverseOpt, Option.bind_eq_some, Option.map_eq_some'] at h
      obtain ⟨b, hb, bs, hbs, rfl⟩ := h
      cases i with
      | zero => simp [hb]
      | succ i => simpa using ih hbs i

theorem traverseOpt_map_eq {f : β → Option γ} {g : β → γ} :
    ∀ {xs : List β}, (∀ a ∈ xs, f a = some (g a)) → traverseOpt f xs = some (xs.map g) := by
  intro xs
  induction xs with
  | nil => intro _; rfl
  | cons a as ih =>
      intro h
      have ha := h a (List.mem_cons_self a as)
      have hrest := ih fun b hb => h b (List.mem_cons_of_mem a hb)
      simp [traverseOpt, ha, hrest]

theorem traverseOpt_mem {f : β → Option γ} :
    ∀ {xs : List β} {l : List γ}, traverseOpt f xs = some l →
      ∀ a ∈ xs, ∃ b, f a = some b := by
  intro xs
  induction xs with
  | nil => intro l _ a ha; cases ha
  | cons a as ih =>
      intro l h c hc
      simp only [traverseOpt, Option.bind_eq_some, Option.map_eq_some'] at h
      obtain ⟨b, hb, bs, hbs, rfl⟩ := h
      rcases List.mem_cons.mp hc with rfl | hc
      · exact ⟨b, hb⟩
      · exact ih hbs c hc

theorem addL_length [Add α] {a b : List α} (h : a.length = b.length) :
    (addL a b).length = a.length := by
  simp [addL, h]

theorem addL_getD [AddMonoid α] :
    ∀ (a b : List α), a.length = b.length →
      ∀ j, (addL a b).getD j 0 = a.getD j 0 + b.getD j 0 := by
  intro a
  induction a with
  | nil =>
      intro b h j
      cases b with
      | nil => simp [addL]
      | cons y ys => simp at h
  | cons x xs ih =>
      intro b h j
      cases b with
      | nil => simp at h
      | cons y ys =>
          cases j with
          | zero => simp [addL]
          | succ j =>
              simp only [List.length_cons, Nat.succ.injEq] at h
              simpa [addL] using ih ys h j

theorem densityAt_length {tabs : List (List (List α))} {pi v dl : ℕ} {d : List α}
    (h : densityAt tabs pi v dl = some d) : d.length = dl := by
  simp only [densityAt, Option.bind_eq_some] at h
  obtain ⟨tab, _, h⟩ := h
  simpa using traverseOpt_length h

theorem sitePdos_inv {tabs : List (List (List α))} {pd : List (String × ℕ)} {dl : ℕ}
    {sym : String} {site : SitePdos α} (h : sitePdos tabs pd dl sym = some site) :
    ∃ pi d0 d1 d2 d3, List.lookup sym pd = some pi ∧
      densityAt tabs pi 0 dl = some d0 ∧ densityAt tabs pi 1 dl = some d1 ∧
      densityAt tabs pi 2 dl = some d2 ∧ densityAt tabs pi 3 dl = some d3 ∧
      site = [(Orbital.s, [(Spin.up, d0)]), (Orbital.py, [(Spin.up, d1)]),
              (Orbital.dxy, [(Spin.up, d2)]), (Orbital.f0, [(Spin.up, d3)])] := by
  simp only [sitePdos, vorbForb, traverseOpt, mkSpinMap, Option.bind_eq_some,
    Option.map_eq_some', Option.some.injEq] at h
  obtain ⟨pi, hpi, h⟩ := h
  obtain ⟨p0, ⟨d0, hd0, rfl⟩, l1, ⟨p1, ⟨d1, hd1, rfl⟩, l2, ⟨p2, ⟨d2, hd2, rfl⟩, l3,
    ⟨p3, ⟨d3, hd3, rfl⟩, l4, h4, rfl⟩, rfl⟩, rfl⟩, hsite⟩ := h
  subst h4
  exact ⟨pi, d0, d1, d2, d3, hpi, hd0, hd1, hd2, hd3, hsite.symm⟩

theorem tdosSite_inv [Add α] {tabs : List (List (List α))} {pi dl : ℕ}
    {acc acc2 : List α} (h : tdosSite tabs pi dl [0, 1, 2, 3] acc = some acc2) :
    ∃ d0 d1 d2 d3,
      densityAt tabs pi 0 dl = some d0 ∧ densityAt tabs pi 1 dl = some d1 ∧
      densityAt tabs pi 2 dl = some d2 ∧ densityAt tabs pi 3 dl = some d3 ∧
      acc2 = addL (addL (addL (addL acc d0) d1) d2) d3 := by
  simp only [tdosSite, Option.bind_eq_some, Option.some.injEq] at h
  obtain ⟨d0, hd0, d1, hd1, d2, hd2, d3, hd3, h⟩ := h
  exact ⟨d0, d1, d2, d3, hd0, hd1, hd2, hd3, h.symm⟩

/-- The spin-up density list stored in a spin map (empty when absent). -/
def upDensity (sm : SpinMap α) : List α := (List.lookup Spin.up sm).getD []

theorem upDensity_single (d : List α) : upDensity [(Spin.up, d)] = d := rfl

/-- The accumulated total DOS equals the accumulator plus, pointwise, the sum
of all spin-up partial densities of the sites' projected DOS. -/
theorem computeTdos_spec [AddCommMonoid α] {tabs : List (List (List α))}
    {pd : List (String × ℕ)} {dl : ℕ} :
    ∀ {syms : List String} {acc t : List α} {ps : List (SitePdos α)},
      computeTdos tabs pd dl syms acc = some t →
      traverseOpt (sitePdos tabs pd dl) syms = some ps →
      acc.length = dl →
      t.length = dl ∧
        ∀ j, t.getD j 0 = acc.getD j 0 +
          (ps.map fun site => (site.map fun p => (upDensity p.2).getD j 0).sum).sum := by
  intro syms
  induction syms with
  | nil =>
      intro acc t ps ht hps hlen
      simp only [computeTdos, Option.some.injEq] at ht
      simp only [traverseOpt, Option.some.injEq] at hps
      subst ht
      subst hps
      simp [hlen]
  | cons sym rest ih =>
      intro acc t ps ht hps hlen
      simp only [computeTdos, Option.bind_eq_some] at ht
      obtain ⟨pi, hpi, acc2, hacc2, ht⟩ := ht
      simp only [traverseOpt, Option.bind_eq_some, Option.map_eq_some'] at hps
      obtain ⟨site, hsite, ps2, hps2, rfl⟩ := hps
      obtain ⟨pi2, d0, d1, d2, d3, hpi2, hd0, hd1, hd2, hd3, hsiteEq⟩ := sitePdos_inv hsite
      rw [hpi] at hpi2
      injection hpi2 with hpieq
      subst hpieq
      obtain ⟨e0, e1, e2, e3, he0, he1, he2, he3, hacc2eq⟩ := tdosSite_inv hacc2
      rw [hd0] at he0
      rw [hd1] at he1
      rw [hd2] at he2
      rw [hd3] at he3
      injection he0 with he0
      injection he1 with he1
      injection he2 with he2
      injection he3 with he3
      subst he0
      subst he1
      subst he2
      subst he3
      have l0 : d0.length = dl := densityAt_length hd0
      have l1 : d1.length = dl := densityAt_length hd1
      have l2 : d2.length = dl := densityAt_length hd2
      have l3 : d3.length = dl := densityAt_length hd3
      have la0 : (addL acc d0).length = dl := by rw [addL_length (by rw [hlen, l0])]; exact hlen
      have la1 : (addL (addL acc d0) d1).length = dl := by
        rw [addL_length (by rw [la0, l1])]; exact la0
      have la2 : (addL (addL (addL acc d0) d1) d2).length = dl := by
        rw [addL_length (by rw [la1, l2])]; exact la1
      have la3 : acc2.length = dl := by
        rw [hacc2eq, addL_length (by rw [la2, l3])]; exact la2
      obtain ⟨htlen, hsum⟩ := ih ht hps2 la3
      refine ⟨htlen, fun j => ?_⟩
      rw [hsum j, hacc2eq]
      rw [addL_getD _ _ (by rw [la2, l3]) j, addL_getD _ _ (by rw [la1, l2]) j,
        addL_getD _ _ (by rw [la0, l1]) j, addL_getD _ _ (by rw [hlen, l0]) j]
      subst hsiteEq
      simp only [List.map_cons, List.map_nil, List.sum_cons, List.sum_nil, upDensity_single]
      abel

/-- Inversion of a successful `LDos.from_file` into all stage results. -/
theorem LDos.from_file_inv [Zero α] [Add α] {struct : List String}
    {pd : List (String × ℕ)} {pd1 : List (ℕ × String)} {fs : FS α} {f2 : String}
    {obj : LDos α} (h : LDos.from_file struct pd pd1 fs f2 = some obj) :
    ∃ f line0 tok efermi tabs tab1 denergies pdoss tdosL cht,
      fsLookup fs (f2 ++ ("00.dat")) = some f ∧
      f.get? 0 = some line0 ∧ line0.get? 4 = some tok ∧ pyFloat tok = some efermi ∧
      traverseOpt (fun i0 => loadtxt fs (ldosName f2 (i0 + 1)))
        (List.range pd.length) = some tabs ∧
      getLdos tabs 1 = some tab1 ∧
      traverseOpt (fun row => row.get? 0) tab1 = some denergies ∧
      traverseOpt (sitePdos tabs pd tab1.length) struct = some pdoss ∧
      computeTdos tabs pd tab1.length struct (List.replicate tab1.length 0) = some tdosL ∧
      LDos.charge_transfer_from_file pd.length pd1 fs f2 = some cht ∧
      obj = { complete_dos :=
                { struct := struct
                  dos := { efermi := efermi, energies := denergies,
                           densities := [(Spin.up, tdosL)] }
                  pdoss := pdoss }
              charge_transfer := cht } := by
  simp only [LDos.from_file, Option.bind_eq_some, Option.map_eq_some'] at h
  obtain ⟨f, hf, line0, hl0, tok, htok, efermi, hef, tabs, htabs, tab1, htab1, den, hden,
    pdoss, hpdoss, tdosL, htdos, cht, hcht, hobj⟩ := h
  exact ⟨f, line0, tok, efermi, tabs, tab1, den, pdoss, tdosL, cht, hf, hl0, htok, hef,
    htabs, htab1, hden, hpdoss, htdos, hcht, hobj.symm⟩

theorem traverseOpt_mem_result {f : β → Option γ} :
    ∀ {xs : List β} {l : List γ}, traverseOpt f xs = some l →
      ∀ b ∈ l, ∃ a ∈ xs, f a = some b := by
  intro xs
  induction xs with
  | nil =>
      intro l h b hb
      simp only [traverseOpt, Option.some.injEq] at h
      subst h
      cases hb
  | cons a as ih =>
      intro l h c hc
      simp only [traverseOpt, Option.bind_eq_some, Option.map_eq_some'] at h
      obtain ⟨b, hb, bs, hbs, rfl⟩ := h
      rcases List.mem_cons.mp hc with rfl | hc
      · exact ⟨a, List.mem_cons_self a as, hb⟩
      · obtain ⟨a2, ha2, hfa2⟩ := ih hbs c hc
        exact ⟨a2, List.mem_cons_of_mem a ha2, hfa2⟩

/-- The table the parser calls `ldos[1]` is the `loadtxt` of the first
numbered ldos file. -/
theorem tabs_first {fs : FS α} {f2 : String} {n : ℕ} {tabs : List (List (List α))}
    {tab1 : List (List α)}
    (htabs : traverseOpt (fun i0 => loadtxt fs (ldosName f2 (i0 + 1)))
      (List.range n) = some tabs)
    (htab1 : getLdos tabs 1 = some tab1) :
    loadtxt fs (ldosName f2 1) = some tab1 := by
  have h1 : tabs.get? 0 = some tab1 := by simpa [getLdos] using htab1
  have hlen : tabs.length = n := by simpa using traverseOpt_length htabs
  have hn : 0 < n := by
    rcases Nat.eq_zero_or_pos n with h0 | h0
    · subst h0
      rw [List.length_eq_zero.mp hlen] at h1
      cases h1
    · exact h0
  have := traverseOpt_get? htabs 0
  rw [h1, List.get?_range hn, Option.some_bind] at this
  exact this.symm

theorem get?_eq_some_getD [Inhabited γ] {r : List γ} {k : ℕ} (hk : k < r.length) :
    r.get? k = some (r.getD k default) := by
  cases hv : r.get? k with
  | none => exact absurd (List.get?_eq_none.mp hv) (Nat.not_le.mpr hk)
  | some v => rw [List.getD_eq_get?, hv]; rfl

theorem six_elems [Inhabited γ] {r : List γ} (h : r.length = 6) :
    r = [r.getD 0 default, r.getD 1 default, r.getD 2 default,
         r.getD 3 default, r.getD 4 default, r.getD 5 default] := by
  rcases r with _ | ⟨a, _ | ⟨b, _ | ⟨c, _ | ⟨d, _ | ⟨e, _ | ⟨g, _ | ⟨x, rest⟩⟩⟩⟩⟩⟩⟩ <;>
    simp_all [List.getD_cons_zero, List.getD_cons_succ]

theorem replicate_getD (n j : ℕ) (c : γ) : (List.replicate n c).getD j c = c := by
  induction n generalizing j with
  | zero => simp [List.getD]
  | succ n ih =>
      cases j with
      | zero => simp
      | succ j => exact ih j

/-! ### Claim theorems -/

/-- C1: for every ldos file set parsed by `LDos.from_file`, the total density
of states at each energy index equals the sum, over all structure sites and
over the four orbital characters, of the spin-up partial density stored for
that site and orbital (the total DOS under `Spin.up` is exactly the sum of the
per-site per-orbital partial densities). -/
theorem feff_c1_total_dos_is_sum_of_partials [AddCommMonoid α]
    (struct : List String) (pd : List (String × ℕ)) (pd1 : List (ℕ × String))
    (fs : FS α) (f2 : String) (obj : LDos α)
    (h : LDos.from_file struct pd pd1 fs f2 = some obj) :
    ∀ j, (upDensity obj.complete_dos.dos.densities).getD j 0 =
      (obj.complete_dos.pdoss.map fun site =>
        (site.map fun p => (upDensity p.2).getD j 0).sum).sum := by
  obtain ⟨f, line0, tok, efermi, tabs, tab1, den, pdoss, tdosL, cht, hf, hl0, htok, hef,
    htabs, htab1, hden, hpdoss, htdos, hcht, hobj⟩ := LDos.from_file_inv h
  subst hobj
  intro j
  have hrep : (List.replicate tab1.length (0 : α)).length = tab1.length := by simp
  obtain ⟨_, hsum⟩ := computeTdos_spec htdos hpdoss hrep
  have := hsum j
  rw [replicate_getD] at this
  rw [zero_add] at this
  simpa [upDensity_single] using this

theorem feff_c1_witness :
    (upDensity exLDos.complete_dos.dos.densities).getD 0 0 =
      (exLDos.complete_dos.pdoss.map fun site =>
        (site.map fun p => (upDensity p.2).getD 0 0).sum).sum :=
  feff_c1_total_dos_is_sum_of_partials exStruct exPotDict exPotDict1 exFS ("ldos")
    exLDos (by decide) 0

/-- C3: every density mapping `LDos.from_file` produces (the total DOS and
every per-site per-orbital partial DOS) is the one-entry map with key
`Spin.up`; a `Spin.down` entry is never produced. -/
theorem feff_c3_single_spin_channel [AddCommMonoid α]
    (struct : List String) (pd : List (String × ℕ)) (pd1 : List (ℕ × String))
    (fs : FS α) (f2 : String) (obj : LDos α)
    (h : LDos.from_file struct pd pd1 fs f2 = some obj) :
    obj.complete_dos.dos.densities =
      [(Spin.up, upDensity obj.complete_dos.dos.densities)] ∧
    ∀ site ∈ obj.complete_dos.pdoss, ∀ p ∈ site, p.2 = [(Spin.up, upDensity p.2)] := by
  obtain ⟨f, line0, tok, efermi, tabs, tab1, den, pdoss, tdosL, cht, hf, hl0, htok, hef,
    htabs, htab1, hden, hpdoss, htdos, hcht, hobj⟩ := LDos.from_file_inv h
  subst hobj
  refine ⟨rfl, fun site hsite p hp => ?_⟩
  obtain ⟨sym, _, hsym⟩ := traverseOpt_mem_result hpdoss site hsite
  obtain ⟨pi, d0, d1, d2, d3, _, _, _, _, _, hsiteEq⟩ := sitePdos_inv hsym
  subst hsiteEq
  simp only [List.mem_cons, List.not_mem_nil, or_false] at hp
  rcases hp with rfl | rfl | rfl | rfl <;> rfl

theorem feff_c3_witness :
    exLDos.complete_dos.dos.densities =
      [(Spin.up, upDensity exLDos.complete_dos.dos.densities)] :=
  (feff_c3_single_spin_channel exStruct exPotDict exPotDict1 exFS ("ldos") exLDos
    (by decide)).1

/-- C9: on a successful `LDos.from_file`, the energies list, the total DOS
list under each spin key, and every per-site per-orbital partial density list
all have the number of rows of the first numbered ldos data file as length. -/
theorem feff_c9_equal_lengths [AddCommMonoid α]
    (struct : List String) (pd : List (String × ℕ)) (pd1 : List (ℕ × String))
    (fs : FS α) (f2 : String) (obj : LDos α)
    (h : LDos.from_file struct pd pd1 fs f2 = some obj) :
    ∃ tab1, loadtxt fs (ldosName f2 1) = some tab1 ∧
      obj.complete_dos.dos.energies.length = tab1.length ∧
      (∀ sd ∈ obj.complete_dos.dos.densities, sd.2.length = tab1.length) ∧
      ∀ site ∈ obj.complete_dos.pdoss, ∀ p ∈ site, ∀ sd ∈ p.2,
        sd.2.length = tab1.length := by
  obtain ⟨f, line0, tok, efermi, tabs, tab1, den, pdoss, tdosL, cht, hf, hl0, htok, hef,
    htabs, htab1, hden, hpdoss, htdos, hcht, hobj⟩ := LDos.from_file_inv h
  subst hobj
  refine ⟨tab1, tabs_first htabs htab1, ?_, ?_, ?_⟩
  · exact traverseOpt_length hden
  · intro sd hsd
    have hrep : (List.replicate tab1.length (0 : α)).length = tab1.length := by simp
    obtain ⟨htlen, _⟩ := computeTdos_spec htdos hpdoss hrep
    simp only [List.mem_cons, List.not_mem_nil, or_false] at hsd
    subst hsd
    exact htlen
  · intro site hsite p hp sd hsd
    obtain ⟨sym, _, hsym⟩ := traverseOpt_mem_result hpdoss site hsite
    obtain ⟨pi, d0, d1, d2, d3, _, hd0, hd1, hd2, hd3, hsiteEq⟩ := sitePdos_inv hsym
    subst hsiteEq
    simp only [List.mem_cons, List.not_mem_nil, or_false] at hp
    rcases hp with rfl | rfl | rfl | rfl <;>
      simp only [List.mem_cons, List.not_mem_nil, or_false] at hsd <;>
      subst hsd
    · exact densityAt_length hd0
    · exact densityAt_length hd1
    · exact densityAt_length hd2
    · exact densityAt_length hd3

theorem feff_c9_witness : exLDos.complete_dos.dos.energies.length = 2 := by
  obtain ⟨tab1, hload, hlen, _⟩ :=
    feff_c9_equal_lengths exStruct exPotDict exPotDict1 exFS ("ldos") exLDos (by decide)
  have h2 : loadtxt exFS (ldosName ("ldos") 1) =
      some [[(-1 : ℤ), 1, 2, 3, 4], [0, 2, 3, 4, 5]] := by decide
  have h3 := Option.some.inj (h2.symm.trans hload)
  rw [hlen, ← h3]
  rfl

/-- C6: a successful `LDos.from_file` takes the Fermi energy from the fifth
token of the first line of the ldos `00.dat` file, parsed as a float, and its
energies are, entry for entry, the first column of the first numbered ldos
data file. -/
theorem feff_c6_efermi_and_energies [AddCommMonoid α]
    (struct : List String) (pd : List (String × ℕ)) (pd1 : List (ℕ × String))
    (fs : FS α) (f2 : String) (obj : LDos α)
    (h : LDos.from_file struct pd pd1 fs f2 = some obj) :
    some obj.complete_dos.dos.efermi =
      ((fsLookup fs (f2 ++ ("00.dat"))).bind fun f =>
        (f.get? 0).bind fun line0 => (line0.get? 4).bind pyFloat) ∧
    ∃ tab1, loadtxt fs (ldosName f2 1) = some tab1 ∧
      ∀ i, obj.complete_dos.dos.energies.get? i =
        (tab1.get? i).bind fun row => row.get? 0 := by
  obtain ⟨f, line0, tok, efermi, tabs, tab1, den, pdoss, tdosL, cht, hf, hl0, htok, hef,
    htabs, htab1, hden, hpdoss, htdos, hcht, hobj⟩ := LDos.from_file_inv h
  subst hobj
  constructor
  · rw [hf, Option.some_bind, hl0, Option.some_bind, htok, Option.some_bind, hef]
  · exact ⟨tab1, tabs_first htabs htab1, fun i => traverseOpt_get? hden i⟩

theorem feff_c6_witness : exLDos.complete_dos.dos.efermi = (7 : ℤ) := by
  have h := (feff_c6_efermi_and_energies exStruct exPotDict exPotDict1 exFS ("ldos")
    exLDos (by decide)).1
  have h2 : ((fsLookup exFS (("ldos") ++ ("00.dat"))).bind fun f =>
      (f.get? 0).bind fun line0 => (line0.get? 4).bind pyFloat) = some (7 : ℤ) := by decide
  exact Option.some.inj (h.trans h2)

/-- The value of the `energies` property is column 0 of the data table. -/
theorem Xmu.energies_eq (x : Xmu α) : Xmu.energies x = Xmu.column x 0 := rfl

theorem Xmu.relative_energies_eq (x : Xmu α) :
    Xmu.relative_energies x = Xmu.column x 1 := rfl

theorem Xmu.wavenumber_eq (x : Xmu α) : Xmu.wavenumber x = Xmu.column x 2 := rfl

theorem Xmu.mu_eq (x : Xmu α) : Xmu.mu x = Xmu.column x 3 := rfl

theorem Xmu.mu0_eq (x : Xmu α) : Xmu.mu0 x = Xmu.column x 4 := rfl

theorem Xmu.chi_eq (x : Xmu α) : Xmu.chi x = Xmu.column x 5 := rfl

/-- The value of `as_dict` as an explicit option chain over the property
values; holds by unfolding the state-passing definitions. -/
theorem Xmu.as_dict_eq (x : Xmu α) :
    Xmu.as_dict x =
      ((Xmu.column x 0).bind fun es =>
        (Xmu.column x 3).bind fun muv =>
          (Xmu.column x 4).bind fun mu0v =>
            (Xmu.column x 5).bind fun chiv =>
              (List.lookup ("EDGE") x.parameters).map fun edgev =>
                { module := ("pymatgen.io.feff.outputs")
                  cls := ("Xmu")
                  energies := es
                  mu := muv
                  mu0 := mu0v
                  chi := chiv
                  atom := x.absorbing_atom
                  edge := edgev
                  source := x.header.source
                  calcType := (Xmu.calcM.run x).1
                  formula := (Xmu.material_formulaM.run x).1
                  HEADER := Header.as_dict x.header
                  TAGS := x.parameters
                  c_atom := x.absorbing_atom
                  xmu := x.data }) := rfl

/-- A successful column read when each row of an N×6 table is long enough. -/
theorem column_of_width6 [Inhabited α] {x : Xmu α} (h6 : ∀ r ∈ x.data, r.length = 6)
    {k : ℕ} (hk : k < 6) :
    Xmu.column x k = some (x.data.map fun r => r.getD k default) := by
  refine traverseOpt_map_eq fun r hr => ?_
  exact get?_eq_some_getD (by rw [h6 r hr]; exact hk)

/-- C2: for every `Xmu` object with an N×6 data table, the accessors
`energies`, `relative_energies`, `wavenumber`, `mu`, `mu0` and `chi` return
columns 0 through 5 of the table in that order, so each row is the tuple
(energy, relative energy, wavenumber, mu, mu0, chi). -/
theorem feff_c2_accessor_columns [Inhabited α] (x : Xmu α)
    (h6 : ∀ r ∈ x.data, r.length = 6) :
    Xmu.energies x = some (x.data.map fun r => r.getD 0 default) ∧
    Xmu.relative_energies x = some (x.data.map fun r => r.getD 1 default) ∧
    Xmu.wavenumber x = some (x.data.map fun r => r.getD 2 default) ∧
    Xmu.mu x = some (x.data.map fun r => r.getD 3 default) ∧
    Xmu.mu0 x = some (x.data.map fun r => r.getD 4 default) ∧
    Xmu.chi x = some (x.data.map fun r => r.getD 5 default) ∧
    ∀ i r, x.data.get? i = some r →
      r = [r.getD 0 default, r.getD 1 default, r.getD 2 default,
           r.getD 3 default, r.getD 4 default, r.getD 5 default] := by
  refine ⟨?_, ?_, ?_, ?_, ?_, ?_, ?_⟩
  · rw [Xmu.energies_eq]; exact column_of_width6 h6 (by norm_num)
  · rw [Xmu.relative_energies_eq]; exact column_of_width6 h6 (by norm_num)
  · rw [Xmu.wavenumber_eq]; exact column_of_width6 h6 (by norm_num)
  · rw [Xmu.mu_eq]; exact column_of_width6 h6 (by norm_num)
  · rw [Xmu.mu0_eq]; exact column_of_width6 h6 (by norm_num)
  · rw [Xmu.chi_eq]; exact column_of_width6 h6 (by norm_num)
  · intro i r hr
    exact six_elems (h6 r (List.get?_mem hr))

theorem feff_c2_witness : Xmu.energies exXmu = some [1, 7] := by
  have h := (feff_c2_accessor_columns exXmu (by decide)).1
  exact h.trans (by decide)

/-- C4: for every `Xmu` object whose `as_dict` succeeds, `from_dict` of that
dictionary reconstructs an object with the same data table, absorbing atom
and parameters. -/
theorem feff_c4_roundtrip (x : Xmu α) (d : XmuDict α) (h : Xmu.as_dict x = some d) :
    (Xmu.from_dict d).data = x.data ∧
    (Xmu.from_dict d).absorbing_atom = x.absorbing_atom ∧
    (Xmu.from_dict d).parameters = x.parameters := by
  rw [Xmu.as_dict_eq] at h
  simp only [Option.bind_eq_some, Option.map_eq_some'] at h
  obtain ⟨es, _, muv, _, mu0v, _, chiv, _, edgev, _, hd⟩ := h
  subst hd
  exact ⟨rfl, rfl, rfl⟩

theorem feff_c4_witness : (Xmu.from_dict exXmuDict).data = exXmu.data :=
  (feff_c4_roundtrip exXmu exXmuDict (by decide)).1

/-- C10: `material_formula` is total: when reading the header formula raises
`IndexError` it returns the fallback string, and otherwise the header's
formula joined into a single string. -/
theorem feff_c10_material_formula (x : Xmu α) :
    (x.header.formula = none →
      (Xmu.material_formulaM.run x).1 = ("No formula provided")) ∧
    ∀ fl, x.header.formula = some fl →
      (Xmu.material_formulaM.run x).1 = String.join fl := by
  obtain ⟨⟨src, formO⟩, params, atom, dta⟩ := x
  constructor
  · intro h
    simp only at h
    subst h
    show String.join ((("No formula provided").toList).map fun c => String.mk [c]) =
      ("No formula provided")
    decide
  · intro fl h
    simp only at h
    subst h
    show String.join (fl.map fun s => s) = String.join fl
    rw [List.map_id']

theorem feff_c10_witness :
    (Xmu.material_formulaM.run
        ({ header := { source := ("x"), formula := none }
           parameters := []
           absorbing_atom := ("A")
           data := [] } : Xmu ℤ)).1 = ("No formula provided") :=
  (feff_c10_material_formula _).1 rfl

/-- Inversion of a successful charge-transfer entry into its file reads. -/
theorem chtEntry_inv {pd1 : List (ℕ × String)} {fs : FS α} {f2 : String} {i : ℕ}
    {e : String × String × ChtVals α} (h : chtEntry pd1 fs f2 i = some e) :
    ∃ f s p d f1 tot atom,
      fsLookup fs (ldosName f2 i) = some f ∧
      ((f.get? 3).bind fun l => (l.get? 2).bind pyFloat) = some s ∧
      ((f.get? 4).bind fun l => (l.get? 2).bind pyFloat) = some p ∧
      ((f.get? 5).bind fun l => (l.get? 2).bind pyFloat) = some d ∧
      ((f.get? 6).bind fun l => (l.get? 2).bind pyFloat) = some f1 ∧
      ((f.get? 1).bind fun l => (l.get? 4).bind pyFloat) = some tot ∧
      List.lookup i pd1 = some atom ∧
      e = (toString i, atom, ChtVals.mk s p d f1 tot) := by
  rw [chtEntry, Option.bind_eq_some] at h
  obtain ⟨f, hf, h⟩ := h
  rw [Option.bind_eq_some] at h
  obtain ⟨s, hs, h⟩ := h
  rw [Option.bind_eq_some] at h
  obtain ⟨p, hp, h⟩ := h
  rw [Option.bind_eq_some] at h
  obtain ⟨d, hd, h⟩ := h
  rw [Option.bind_eq_some] at h
  obtain ⟨f1, hf1, h⟩ := h
  rw [Option.bind_eq_some] at h
  obtain ⟨tot, htot, h⟩ := h
  rw [Option.map_eq_some'] at h
  obtain ⟨atom, hatom, he⟩ := h
  exact ⟨f, s, p, d, f1, tot, atom, hf, hs, hp, hd, hf1, htot, hatom, he.symm⟩

/-- C7: a successful `charge_transfer_from_file` for a run with `npots`
potentials yields exactly `npots + 1` entries, keyed in order by the decimal
strings of `0 .. npots`; entry `i` maps the potential's atom to the values
read from the third token of lines 4-7 and the fifth token of line 2 of ldos
file `i`, under exactly the keys s, p, d, f and tot. -/
theorem feff_c7_charge_transfer_table (npots : ℕ) (pd1 : List (ℕ × String))
    (fs : FS α) (f2 : String) (cht : Cht α)
    (h : LDos.charge_transfer_from_file npots pd1 fs f2 = some cht) :
    cht.length = npots + 1 ∧
    ∀ i, i ≤ npots → ∃ f s p d f1 tot atom,
      fsLookup fs (ldosName f2 i) = some f ∧
      ((f.get? 3).bind fun l => (l.get? 2).bind pyFloat) = some s ∧
      ((f.get? 4).bind fun l => (l.get? 2).bind pyFloat) = some p ∧
      ((f.get? 5).bind fun l => (l.get? 2).bind pyFloat) = some d ∧
      ((f.get? 6).bind fun l => (l.get? 2).bind pyFloat) = some f1 ∧
      ((f.get? 1).bind fun l => (l.get? 4).bind pyFloat) = some tot ∧
      List.lookup i pd1 = some atom ∧
      cht.get? i = some (toString i, atom, ChtVals.mk s p d f1 tot) := by
  have hlen : cht.length = npots + 1 := by
    simpa using traverseOpt_length h
  refine ⟨hlen, fun i hi => ?_⟩
  have hget := traverseOpt_get? h i
  rw [List.get?_range (Nat.lt_succ_of_le hi), Option.some_bind] at hget
  cases he : chtEntry pd1 fs f2 i with
  | none =>
      rw [he] at hget
      exact absurd (List.get?_eq_none.mp hget)
        (Nat.not_le.mpr (hlen ▸ Nat.lt_succ_of_le hi))
  | some e =>
      rw [he] at hget
      obtain ⟨f, s, p, d, f1, tot, atom, hf, hs, hp, hd, hf1, htot, hatom, heq⟩ :=
        chtEntry_inv he
      subst heq
      exact ⟨f, s, p, d, f1, tot, atom, hf, hs, hp, hd, hf1, htot, hatom, hget⟩

theorem feff_c7_witness :
    (([(("0"), ("Cu"), ChtVals.mk (1 : ℤ) 2 3 4 10),
       (("1"), ("O"), ChtVals.mk 5 6 7 8 20)]) : Cht ℤ).length = 1 + 1 :=
  (feff_c7_charge_transfer_table 1 exPotDict1 exFS ("ldos") _ (by decide)).1

/-- C5: a missing ldos file, a non-numeric Fermi-energy token, a missing xmu
file or a malformed xmu table makes the parse return `none`: no object and no
partially assembled result is handed to the caller. -/
theorem feff_c5_failure_yields_none [AddCommMonoid α] [ToString α]
    (struct : List String) (pd : List (String × ℕ)) (pd1 : List (ℕ × String))
    (fs : FS α) (f2 xfile : String) (hdr : Header) (tags : Tags)
    (pots : List (List (Tok α))) :
    (∀ i, i ≤ pd.length → fsLookup fs (ldosName f2 i) = none →
      LDos.from_file struct pd pd1 fs f2 = none) ∧
    (∀ f line0 tok, fsLookup fs (f2 ++ ("00.dat")) = some f →
      f.get? 0 = some line0 → line0.get? 4 = some tok → pyFloat tok = none →
      LDos.from_file struct pd pd1 fs f2 = none) ∧
    (loadtxt fs xfile = none → Xmu.from_file fs xfile hdr tags pots = none) ∧
    (fsLookup fs xfile = none → Xmu.from_file fs xfile hdr tags pots = none) := by
  refine ⟨?_, ?_, ?_, ?_⟩
  · intro i hi hnone
    cases hr : LDos.from_file struct pd pd1 fs f2 with
    | none => rfl
    | some obj =>
        exfalso
        obtain ⟨f, line0, tok, efermi, tabs, tab1, den, pdoss, tdosL, cht, hf, hl0, htok,
          hef, htabs, htab1, hden, hpdoss, htdos, hcht, hobj⟩ := LDos.from_file_inv hr
        obtain ⟨e, he⟩ := traverseOpt_mem hcht i (List.mem_range.mpr (Nat.lt_succ_of_le hi))
        obtain ⟨ff, _, _, _, _, _, _, hff, _⟩ := chtEntry_inv he
        rw [hnone] at hff
        cases hff
  · intro f line0 tok hf hl0 htok hpy
    simp only [LDos.from_file, hf, Option.some_bind, hl0, htok, hpy, Option.none_bind]
  · intro h
    simp [Xmu.from_file, h]
  · intro h
    simp [Xmu.from_file, loadtxt, h]

theorem feff_c5_witness :
    LDos.from_file exStruct exPotDict exPotDict1 ([] : FS ℤ) ("ldos") = none :=
  (feff_c5_failure_yields_none exStruct exPotDict exPotDict1 ([] : FS ℤ) ("ldos")
      ("xmu.dat") (Header.mk ("") none) [] []).1 0 (by decide) rfl

/-- C8: no accessor mutates the object: every property of `Xmu`, `as_dict`,
and `charge_transfer_to_string` leave the state component of their
state-passing semantics unchanged. -/
theorem feff_c8_accessors_do_not_mutate [ToString α] (x : Xmu α) (l : LDos α) :
    (Xmu.energiesM.run x).2 = x ∧ (Xmu.relative_energiesM.run x).2 = x ∧
    (Xmu.wavenumberM.run x).2 = x ∧ (Xmu.muM.run x).2 = x ∧
    (Xmu.mu0M.run x).2 = x ∧ (Xmu.chiM.run x).2 = x ∧
    (Xmu.sourceM.run x).2 = x ∧ (Xmu.calcM.run x).2 = x ∧
    (Xmu.material_formulaM.run x).2 = x ∧ (Xmu.edgeM.run x).2 = x ∧
    (Xmu.as_dictM.run x).2 = x ∧
    (LDos.charge_transfer_to_stringM.run l).2 = l := by
  obtain ⟨⟨src, formO⟩, params, atom, dta⟩ := x
  cases formO <;>
    exact ⟨rfl, rfl, rfl, rfl, rfl, rfl, rfl, rfl, rfl, rfl, rfl, rfl⟩

end FeffOutputs
